import Mathlib

/-!
Verification development for the fleet mission-control orchestrator
(`src/main.py`).  The Python core is shallowly embedded: real-valued
coordinates and telemetry quantities are modelled by `Rat` (the arithmetic the
source performs on them is field arithmetic plus comparisons, which `Rat`
models exactly), dictionaries become association lists in insertion order,
exceptions become `Except`/`Option`, and the transcendental helpers
(`math.cos`, `math.sin`, `math.atan2`, haversine distance) — whose values the
verified claims never depend on — are passed in as explicit function
parameters.
-/

set_option maxHeartbeats 1000000

namespace GroundControl

/-- Geographic location mirroring the `Location` dataclass of the source:
latitude, longitude and altitude (altitude defaults to `0`). -/
structure Location where
  lat : Rat
  lon : Rat
  alt : Rat := 0
deriving DecidableEq, Repr

/-- Mission waypoint mirroring the `Waypoint` dataclass of the source. -/
structure Waypoint where
  lat : Rat
  lon : Rat
  alt : Rat
  command : String := "WAYPOINT"
  params : List (String × Rat) := []
  sequence : Nat := 0
deriving DecidableEq, Repr

/-- One iteration of the ray-casting loop of
`GeofencingEngine.point_in_polygon`, processing the edge from `e.1` to `e.2`
with the running `inside` flag.  The source guards the crossing test by
`y > min(p1y, p2y)` and `y <= max(p1y, p2y)`; inside that guard `p1y ≠ p2y`
necessarily holds (otherwise `y > p1y` and `y ≤ p1y`), so the conditional
assignment `if p1y != p2y: xinters = ...` of the source always freshly assigns
`xinters` before the use in the same iteration, and the translation computes
it directly. -/
def edgeCross (x y : Rat) (inside : Bool) (e : Location × Location) : Bool :=
  let p1x := e.1.lon
  let p1y := e.1.lat
  let p2x := e.2.lon
  let p2y := e.2.lat
  if y > min p1y p2y ∧ y ≤ max p1y p2y ∧ x ≤ max p1x p2x then
    let xinters := (y - p1y) * (p2x - p1x) / (p2y - p1y) + p1x
    if p1x = p2x ∨ x ≤ xinters then !inside else inside
  else inside

/-- Ray-casting point-in-polygon test, translated from
`GeofencingEngine.point_in_polygon`.  The source loop visits the edges
`(polygon[i-1], polygon[i % n])` for `i = 1 .. n`, i.e. every edge of the ring
with wrap-around, which is exactly `polygon.zip (polygon.rotate 1)`, starting
with `inside = False`. -/
def point_in_polygon (point : Location) (polygon : List Location) : Bool :=
  (polygon.zip (polygon.rotate 1)).foldl
    (fun ins e => edgeCross point.lon point.lat ins e) false

/-- The known square polygon of property P2, with vertices
(0,0), (0,10), (10,10), (10,0), closed back to (0,0). -/
def squarePolygon : List Location :=
  [⟨0, 0, 0⟩, ⟨0, 10, 0⟩, ⟨10, 10, 0⟩, ⟨10, 0, 0⟩, ⟨0, 0, 0⟩]

/-- C6: for the square polygon with vertices (0,0), (0,10), (10,10), (10,0)
(closed back to (0,0)), `point_in_polygon` returns `true` for the point (5,5)
and `false` for the point (15,15). -/
theorem point_in_polygon_square :
    point_in_polygon ⟨5, 5, 0⟩ squarePolygon = true ∧
    point_in_polygon ⟨15, 15, 0⟩ squarePolygon = false := by
  exact ⟨by decide, by decide⟩

/-- Event priority mirroring the `EventPriority` enum of the source
(CRITICAL = 1, HIGH = 2, MEDIUM = 3, LOW = 4, INFO = 5; smaller sorts first in
the priority queue). -/
inductive EventPriority where
  | critical
  | high
  | medium
  | low
  | info
deriving DecidableEq, Repr

/-- The numeric `value` of each `EventPriority` member, as in the source. -/
def EventPriority.value : EventPriority → Nat
  | .critical => 1
  | .high => 2
  | .medium => 3
  | .low => 4
  | .info => 5

/-- Event mirroring the `Event` dataclass of the source.  Timestamps are
modelled as natural numbers (the source only ever compares them), the payload
map as an association list, and `processed` defaults to `false`. -/
structure Event where
  id : String
  type : String
  priority : EventPriority
  timestamp : Nat
  source : String
  data : List (String × String) := []
  processed : Bool := false
deriving DecidableEq, Repr

/-- A priority-queue entry as enqueued by `EventRouter.publish`: the pair
`(event.priority.value, event.timestamp)` that Python's `PriorityQueue`
compares. -/
abbrev QEntry := Nat × Nat

/-- The queue key of an event, as built by `EventRouter.publish`. -/
def entryOf (e : Event) : QEntry := (e.priority.value, e.timestamp)

/-- `EventRouter.publish` enqueues the event's key into the queue (the queue
is modelled as the multiset of enqueued keys, in arrival order). -/
def publish (q : List QEntry) (e : Event) : List QEntry := q ++ [entryOf e]

/-- The lexicographic order on queue entries used by Python's `PriorityQueue`:
priority value first, timestamp as tie-break. -/
def entryLe (a b : QEntry) : Prop := a.1 < b.1 ∨ (a.1 = b.1 ∧ a.2 ≤ b.2)

instance (a b : QEntry) : Decidable (entryLe a b) := by
  unfold entryLe
  infer_instance

theorem entryLe_refl (a : QEntry) : entryLe a a := Or.inr ⟨rfl, le_refl _⟩

theorem entryLe_trans {a b c : QEntry} (h1 : entryLe a b) (h2 : entryLe b c) :
    entryLe a c := by
  rcases h1 with h1 | ⟨h1, h1t⟩ <;> rcases h2 with h2 | ⟨h2, h2t⟩ <;>
    first
      | exact Or.inl (by omega)
      | exact Or.inr ⟨by omega, by omega⟩

theorem entryLe_total (a b : QEntry) : entryLe a b ∨ entryLe b a := by
  unfold entryLe
  omega

/-- The minimum entry of a non-empty queue, as extracted by
`PriorityQueue.get` in `EventRouter._process_events`. -/
def findMin (x : QEntry) (xs : List QEntry) : QEntry :=
  xs.foldl (fun m y => if entryLe m y then m else y) x

theorem findMin_mem (x : QEntry) (xs : List QEntry) : findMin x xs ∈ x :: xs := by
  induction xs generalizing x with
  | nil => exact List.mem_singleton.mpr rfl
  | cons y ys ih =>
    unfold findMin
    simp only [List.foldl_cons]
    by_cases hc : entryLe x y
    · rw [if_pos hc]
      have h := ih x
      unfold findMin at h
      rcases List.mem_cons.mp h with h' | h'
      · exact List.mem_cons.mpr (Or.inl h')
      · exact List.mem_cons.mpr (Or.inr (List.mem_cons_of_mem y h'))
    · rw [if_neg hc]
      have h := ih y
      unfold findMin at h
      rcases List.mem_cons.mp h with h' | h'
      · exact List.mem_cons.mpr (Or.inr (List.mem_cons.mpr (Or.inl h')))
      · exact List.mem_cons.mpr (Or.inr (List.mem_cons_of_mem y h'))

theorem findMin_le (x : QEntry) (xs : List QEntry) :
    ∀ y ∈ x :: xs, entryLe (findMin x xs) y := by
  induction xs generalizing x with
  | nil =>
    intro y hy
    rcases List.mem_singleton.mp hy with rfl
    exact entryLe_refl _
  | cons z zs ih =>
    have hstep : findMin x (z :: zs) = findMin (if entryLe x z then x else z) zs := by
      unfold findMin
      simp only [List.foldl_cons]
    have hMhead : entryLe (findMin (if entryLe x z then x else z) zs)
        (if entryLe x z then x else z) :=
      ih _ _ (List.mem_cons_self _ _)
    have hMtail : ∀ y ∈ zs, entryLe (findMin (if entryLe x z then x else z) zs) y :=
      fun y hy => ih _ y (List.mem_cons_of_mem _ hy)
    intro y hy
    rw [hstep]
    rcases List.mem_cons.mp hy with rfl | hy'
    · by_cases hc : entryLe y z
      · rw [if_pos hc] at hMhead ⊢
        exact hMhead
      · rw [if_neg hc] at hMhead ⊢
        exact entryLe_trans hMhead ((entryLe_total y z).resolve_left hc)
    · rcases List.mem_cons.mp hy' with rfl | hy''
      · by_cases hc : entryLe x y
        · rw [if_pos hc] at hMhead ⊢
          exact entryLe_trans hMhead hc
        · rw [if_neg hc] at hMhead ⊢
          exact hMhead
      · exact hMtail y hy''

/-- Removal of the first occurrence of an entry from the queue, used to model
the extraction performed by `PriorityQueue.get`. -/
def removeEntry : List QEntry → QEntry → List QEntry
  | [], _ => []
  | x :: xs, a => if x = a then xs else x :: removeEntry xs a

theorem removeEntry_length_of_mem {a : QEntry} :
    ∀ {l : List QEntry}, a ∈ l → (removeEntry l a).length + 1 = l.length := by
  intro l
  induction l with
  | nil => intro h; cases h
  | cons x xs ih =>
    intro h
    by_cases hx : x = a
    · simp [removeEntry, hx]
    · have h' : a ∈ xs := by
        rcases List.mem_cons.mp h with h'' | h''
        · exact absurd h''.symm hx
        · exact h''
      simp [removeEntry, hx, ih h']

theorem perm_cons_removeEntry {a : QEntry} :
    ∀ {l : List QEntry}, a ∈ l → l.Perm (a :: removeEntry l a) := by
  intro l
  induction l with
  | nil => intro h; cases h
  | cons x xs ih =>
    intro h
    by_cases hx : x = a
    · subst hx
      simp [removeEntry]
    · have h' : a ∈ xs := by
        rcases List.mem_cons.mp h with h'' | h''
        · exact absurd h''.symm hx
        · exact h''
      have := (ih h').cons x
      simp only [removeEntry, if_neg hx]
      exact this.trans (List.Perm.swap a x _)

theorem mem_of_mem_removeEntry {a b : QEntry} :
    ∀ {l : List QEntry}, b ∈ removeEntry l a → b ∈ l := by
  intro l
  induction l with
  | nil => intro h; cases h
  | cons x xs ih =>
    intro h
    by_cases hx : x = a
    · simp only [removeEntry, if_pos hx] at h
      exact List.mem_cons_of_mem x h
    · simp only [removeEntry, if_neg hx] at h
      rcases List.mem_cons.mp h with h' | h'
      · exact List.mem_cons.mpr (Or.inl h')
      · exact List.mem_cons_of_mem x (ih h')

/-- The dispatch loop of `EventRouter._process_events`: repeatedly remove the
minimum entry from the queue (`PriorityQueue.get`) until the queue is empty.
The resulting list is the order in which queued events are dispatched. -/
def drain : List QEntry → List QEntry
  | [] => []
  | x :: xs => findMin x xs :: drain (removeEntry (x :: xs) (findMin x xs))
termination_by q => q.length
decreasing_by
  have h := removeEntry_length_of_mem (findMin_mem x xs)
  simp only [List.length_cons] at h ⊢
  omega

theorem drain_perm_aux :
    ∀ (n : Nat) (q : List QEntry), q.length ≤ n → (drain q).Perm q := by
  intro n
  induction n with
  | zero =>
    intro q hq
    have : q = [] := List.length_eq_zero.mp (Nat.le_zero.mp hq)
    subst this
    rw [drain.eq_1]
  | succ n ih =>
    intro q hq
    match q with
    | [] => rw [drain.eq_1]
    | x :: xs =>
      have hm : findMin x xs ∈ x :: xs := findMin_mem x xs
      have hlen : (removeEntry (x :: xs) (findMin x xs)).length ≤ n := by
        have h := removeEntry_length_of_mem hm
        simp only [List.length_cons] at h hq
        omega
      have ihp := ih _ hlen
      have hperm := perm_cons_removeEntry hm
      rw [drain.eq_2]
      exact (List.Perm.cons _ ihp).trans hperm.symm

/-- Every drained queue is a permutation of the queue contents. -/
theorem drain_perm (q : List QEntry) : (drain q).Perm q :=
  drain_perm_aux q.length q (le_refl _)

theorem drain_sorted_aux :
    ∀ (n : Nat) (q : List QEntry), q.length ≤ n →
      List.Pairwise entryLe (drain q) := by
  intro n
  induction n with
  | zero =>
    intro q hq
    have : q = [] := List.length_eq_zero.mp (Nat.le_zero.mp hq)
    subst this
    rw [drain.eq_1]
    exact List.Pairwise.nil
  | succ n ih =>
    intro q hq
    match q with
    | [] =>
      rw [drain.eq_1]
      exact List.Pairwise.nil
    | x :: xs =>
      have hm : findMin x xs ∈ x :: xs := findMin_mem x xs
      have hlen : (removeEntry (x :: xs) (findMin x xs)).length ≤ n := by
        have h := removeEntry_length_of_mem hm
        simp only [List.length_cons] at h hq
        omega
      rw [drain.eq_2]
      refine List.Pairwise.cons ?_ (ih _ hlen)
      intro b hb
      have hb1 : b ∈ removeEntry (x :: xs) (findMin x xs) :=
        (drain_perm_aux n _ hlen).mem_iff.mp hb
      exact findMin_le x xs b (mem_of_mem_removeEntry hb1)

/-- The drained dispatch order is sorted by `entryLe`. -/
theorem drain_sorted (q : List QEntry) : List.Pairwise entryLe (drain q) :=
  drain_sorted_aux q.length q (le_refl _)

theorem foldl_publish_eq (events : List Event) :
    ∀ q : List QEntry, events.foldl publish q = q ++ events.map entryOf := by
  induction events with
  | nil => intro q; simp
  | cons e es ih =>
    intro q
    simp only [List.foldl_cons, List.map_cons, ih, publish]
    simp

/-- C2: for every sequence of events published to the router, the dispatch
order is non-decreasing in priority rank (critical = 1 before high = 2 before
medium = 3 before low = 4 before info = 5) with FIFO tie-break by timestamp
among events of equal priority, and the dispatched entries are exactly the
published ones: whenever entry `a` is dispatched before entry `b`, either `a`
has strictly smaller (more urgent) priority value, or equal priority and a
timestamp no later than `b`'s — so an event still queued is never dispatched
before a queued event of strictly higher priority. -/
theorem dispatch_priority_order (events : List Event) :
    List.Pairwise entryLe (drain (events.foldl publish [])) ∧
    (drain (events.foldl publish [])).Perm (events.map entryOf) := by
  rw [foldl_publish_eq events [], List.nil_append]
  exact ⟨drain_sorted _, drain_perm _⟩

/-- An event handler as used by `EventRouter`: it may throw (modelled by
`Except`). -/
abbrev Handler := Event → Except String Unit

/-- Dictionary lookup on the subscription table
(`self.subscribers`, keyed by event-type string). -/
def lookupSubs {α : Type} : List (String × α) → String → Option α
  | [], _ => none
  | (k, v) :: rest, t => if k = t then some v else lookupSubs rest t

/-- Dictionary update of an existing key (Python keeps the key's position). -/
def updateSubs {α : Type} : List (String × α) → String → α → List (String × α)
  | [], _, _ => []
  | (k, v) :: rest, t, v2 =>
    if k = t then (k, v2) :: rest else (k, v) :: updateSubs rest t v2

/-- The handler list over which `EventRouter._dispatch_event` iterates:
`self.subscribers.get(event.type, [])` followed by the wildcard handlers
`self.subscribers.get('*', [])`. -/
def gatherHandlers {α : Type} (subs : List (String × List α)) (etype : String) :
    List α :=
  ((lookupSubs subs etype).getD []) ++ ((lookupSubs subs "*").getD [])

/-- The subscription table after `EventRouter._dispatch_event` has run for an
event of type `etype`.  In the source, `handlers = self.subscribers.get(event.type, [])`
aliases the list object stored in the table whenever `event.type` is a key, and
`handlers.extend(self.subscribers.get('*', []))` then mutates that stored list
in place, appending the wildcard handlers to it; when `event.type` is not a
key, `get` returns a fresh empty list and the table is untouched. -/
def dispatchSubsAfter {α : Type} (subs : List (String × List α)) (etype : String) :
    List (String × List α) :=
  match lookupSubs subs etype with
  | none => subs
  | some l => updateSubs subs etype (l ++ ((lookupSubs subs "*").getD []))

/-- Final value of the event's `processed` flag after
`EventRouter._dispatch_event`: the source executes `event.processed = True`
inside the per-handler `try`, immediately after each successful handler call,
so the flag is set exactly when some handler returns without throwing (it
keeps its previous value otherwise). -/
def dispatchProcessed (subs : List (String × List Handler)) (e : Event) : Bool :=
  (gatherHandlers subs e.type).foldl
    (fun proc h => match h e with | .ok _ => true | .error _ => proc) e.processed

/-- A handler that always throws. -/
def throwingHandler : Handler := fun _ => .error "handler failure"

/-- A concrete event of type `"x"` with the default `processed = false`. -/
def sampleEvent : Event :=
  { id := "E1", type := "x", priority := .high, timestamp := 0, source := "test" }

/-- C5 counterexample: for the event of type `"x"` dispatched against a
subscription table whose only handler for `"x"` throws, the `processed` flag
is still `false` after dispatch completes — refuting the claim that the flag
is always `true` after dispatch even when handlers threw. -/
theorem dispatch_processed_counterexample :
    dispatchProcessed [("x", [throwingHandler])] sampleEvent = false := by
  rfl

/-- Whether an `Except` value is a success. -/
def exceptOk {ε α : Type} : Except ε α → Bool
  | .ok _ => true
  | .error _ => false

theorem dispatchProcessed_foldl (e : Event) :
    ∀ (hs : List Handler) (b : Bool),
      hs.foldl (fun proc h => match h e with | .ok _ => true | .error _ => proc) b
        = (b || hs.any fun h => exceptOk (h e)) := by
  intro hs
  induction hs with
  | nil => intro b; simp
  | cons h rest ih =>
    intro b
    simp only [List.foldl_cons, List.any_cons]
    cases hh : h e with
    | ok v =>
      simp only [hh, ih, exceptOk]
      simp
    | error err =>
      simp only [hh, ih, exceptOk]
      simp

/-- C5 amended: after `_dispatch_event` completes, the event's `processed`
flag is `true` if and only if at least one of the gathered handlers (exact
type handlers followed by wildcard handlers) ran without throwing, or the
flag was already set before dispatch; in particular, when every handler
throws, or no handler is registered, the flag remains `false`. -/
theorem dispatch_processed_iff_some_handler_ok
    (subs : List (String × List Handler)) (e : Event) :
    dispatchProcessed subs e
      = (e.processed || (gatherHandlers subs e.type).any fun h => exceptOk (h e)) := by
  unfold dispatchProcessed
  exact dispatchProcessed_foldl e (gatherHandlers subs e.type) e.processed

/-- C9 counterexample: dispatching an event of type `"a"` against the table
`[("a", [h0]), ("*", [h1])]` (handlers identified by numeric tags) changes the
table: the wildcard handler is appended to the entry for `"a"` — refuting the
claim that dispatch leaves the subscription table unchanged. -/
theorem dispatch_table_mutation_counterexample :
    dispatchSubsAfter [("a", [0]), ("*", [1])] "a" ≠ [("a", [0]), ("*", [1])] := by
  decide

theorem lookupSubs_updateSubs_self {α : Type} :
    ∀ (subs : List (String × α)) (t : String) (l v : α),
      lookupSubs subs t = some l →
      lookupSubs (updateSubs subs t v) t = some v := by
  intro subs
  induction subs with
  | nil => intro t l v h; cases h
  | cons kv rest ih =>
    intro t l v h
    by_cases hk : kv.1 = t
    · simp [lookupSubs, updateSubs, hk]
    · simp only [lookupSubs, updateSubs, if_neg hk] at h ⊢
      exact ih t l v h

theorem lookupSubs_updateSubs_ne {α : Type} :
    ∀ (subs : List (String × α)) (t t2 : String) (v : α),
      t2 ≠ t →
      lookupSubs (updateSubs subs t v) t2 = lookupSubs subs t2 := by
  intro subs
  induction subs with
  | nil => intro t t2 v _; rfl
  | cons kv rest ih =>
    intro t t2 v hne
    obtain ⟨k, v0⟩ := kv
    by_cases hk : k = t
    · subst hk
      have hk2 : ¬ (k = t2) := fun h => hne h.symm
      simp [updateSubs, lookupSubs, hk2]
    · by_cases hk2 : k = t2
      · subst hk2
        simp [updateSubs, lookupSubs, hk]
      · simp [updateSubs, lookupSubs, hk, hk2, ih t t2 v hne]

/-- C9 amended: dispatching an event whose type is a key of the subscription
table permanently appends the wildcard handlers to that key's stored handler
list (the aliased `handlers.extend` of the source); the wildcard entry itself
is untouched, so the handlers gathered by the next dispatch of the same type
are `(l ++ star) ++ star` — each registered wildcard handler would run once
more per subsequent event of that type, instead of exactly once. -/
theorem dispatch_mutates_subscribers {α : Type} (subs : List (String × List α))
    (etype : String) (l star : List α)
    (hl : lookupSubs subs etype = some l)
    (hstar : lookupSubs subs "*" = some star)
    (hne : etype ≠ "*") :
    dispatchSubsAfter subs etype = updateSubs subs etype (l ++ star) ∧
    lookupSubs (dispatchSubsAfter subs etype) etype = some (l ++ star) ∧
    lookupSubs (dispatchSubsAfter subs etype) "*" = some star ∧
    gatherHandlers (dispatchSubsAfter subs etype) etype = (l ++ star) ++ star := by
  have hafter : dispatchSubsAfter subs etype = updateSubs subs etype (l ++ star) := by
    unfold dispatchSubsAfter
    rw [hl, hstar]
    rfl
  have h2 : lookupSubs (dispatchSubsAfter subs etype) etype = some (l ++ star) := by
    rw [hafter]
    exact lookupSubs_updateSubs_self subs etype l (l ++ star) hl
  have h3 : lookupSubs (dispatchSubsAfter subs etype) "*" = some star := by
    rw [hafter, lookupSubs_updateSubs_ne subs etype "*" (l ++ star) (fun h => hne h.symm)]
    exact hstar
  refine ⟨hafter, h2, h3, ?_⟩
  unfold gatherHandlers
  rw [h2, h3]
  rfl

/-- Witness for the amended C9 theorem at the concrete table of the
counterexample. -/
theorem dispatch_mutates_subscribers_witness :
    (lookupSubs [("a", [0]), ("*", [1])] "a" = some [0] ∧
      lookupSubs [("a", [0]), ("*", [1])] "*" = some [1] ∧
      ("a" : String) ≠ "*") ∧
    (dispatchSubsAfter [("a", [0]), ("*", [1])] "a"
        = updateSubs [("a", [0]), ("*", [1])] "a" ([0] ++ [1]) ∧
      lookupSubs (dispatchSubsAfter [("a", [0]), ("*", [1])] "a") "a"
        = some ([0] ++ [1]) ∧
      lookupSubs (dispatchSubsAfter [("a", [0]), ("*", [1])] "a") "*"
        = some [1] ∧
      gatherHandlers (dispatchSubsAfter [("a", [0]), ("*", [1])] "a") "a"
        = ([0] ++ [1]) ++ [1]) :=
  ⟨⟨by decide, by decide, by decide⟩,
    dispatch_mutates_subscribers [("a", [0]), ("*", [1])] "a" [0] [1]
      (by decide) (by decide) (by decide)⟩

/-- Geofence zone mirroring the `Geofence` dataclass of the source (the
reserved `temporal_rules` field is unused by core logic and omitted). -/
structure Geofence where
  id : String
  name : String
  type : String
  polygon : List Location
  priority : Nat := 1
  active : Bool := true
  min_altitude : Rat := 0
  max_altitude : Rat := 1000
deriving DecidableEq, Repr

/-- Breach record assembled by `GeofencingEngine.check_breach` (the
`distance` key is present only for proximity warnings). -/
structure Breach where
  zone_id : String
  zone_name : String
  type : String
  severity : String
  action : String
  priority : Nat
  distance : Option Rat := none
deriving DecidableEq, Repr

/-- Per-zone loop body of `GeofencingEngine.check_breach`: skip inactive
zones, skip zones whose altitude bounds exclude the location, then classify.
`dtb` abstracts `_distance_to_boundary` (haversine-based, hence
transcendental; its value only matters in the warning branch). -/
def zone_breach (dtb : Location → List Location → Rat) (zone : Geofence)
    (loc : Location) : Option Breach :=
  if zone.active = true then
    if zone.min_altitude ≤ loc.alt ∧ loc.alt ≤ zone.max_altitude then
      let is_inside := point_in_polygon loc zone.polygon
      if zone.type = "keep-out" ∧ is_inside = true then
        some { zone_id := zone.id, zone_name := zone.name, type := "entry_breach",
               severity := "critical", action := "RTL", priority := zone.priority }
      else if zone.type = "keep-in" ∧ is_inside = false then
        some { zone_id := zone.id, zone_name := zone.name, type := "exit_breach",
               severity := "critical", action := "RTL", priority := zone.priority }
      else if zone.type = "warning" ∧ is_inside = true then
        if dtb loc zone.polygon < 50 then
          some { zone_id := zone.id, zone_name := zone.name,
                 type := "proximity_warning", severity := "warning",
                 action := "alert", priority := zone.priority,
                 distance := some (dtb loc zone.polygon) }
        else none
      else none
    else none
  else none

/-- `GeofencingEngine.check_breach`: evaluate every zone (dictionary values
in insertion order) and collect the breach records.  (The per-breach event
publication at critical router priority is orthogonal to C3 and not modelled
here.) -/
def check_breach (dtb : Location → List Location → Rat) (zones : List Geofence)
    (loc : Location) : List Breach :=
  zones.filterMap (fun z => zone_breach dtb z loc)

/-- The breach records that `check_breach` reports for a given zone id. -/
def breaches_for (dtb : Location → List Location → Rat) (zones : List Geofence)
    (loc : Location) (zid : String) : List Breach :=
  (check_breach dtb zones loc).filter (fun b => b.zone_id == zid)

theorem zone_breach_zone_id (dtb : Location → List Location → Rat)
    (z : Geofence) (loc : Location) (b : Breach)
    (h : zone_breach dtb z loc = some b) : b.zone_id = z.id := by
  simp only [zone_breach] at h
  split_ifs at h <;>
    first
      | exact Option.noConfusion h
      | rw [← Option.some.inj h]

theorem breaches_for_of_countP_zero (dtb : Location → List Location → Rat)
    (loc : Location) (zid : String) :
    ∀ zones : List Geofence, zones.countP (fun w => w.id == zid) = 0 →
      breaches_for dtb zones loc zid = [] := by
  intro zones
  induction zones with
  | nil => intro _; rfl
  | cons w rest ih =>
    intro h
    rw [List.countP_cons] at h
    by_cases hw : (w.id == zid) = true
    · rw [if_pos hw] at h
      omega
    · rw [if_neg hw] at h
      have hrest : rest.countP (fun w => w.id == zid) = 0 := by omega
      unfold breaches_for check_breach at ih ⊢
      simp only [List.filterMap_cons]
      cases hzb : zone_breach dtb w loc with
      | none => exact ih hrest
      | some b =>
        have hbid : (b.zone_id == zid) = false := by
          rw [zone_breach_zone_id dtb w loc b hzb]
          exact Bool.not_eq_true _ ▸ hw
        simp only [List.filter_cons, hbid, Bool.false_eq_true, if_false]
        exact ih hrest

theorem breaches_for_unique (dtb : Location → List Location → Rat)
    (loc : Location) (z : Geofence) :
    ∀ zones : List Geofence, z ∈ zones →
      zones.countP (fun w => w.id == z.id) = 1 →
      breaches_for dtb zones loc z.id = (zone_breach dtb z loc).toList := by
  intro zones
  induction zones with
  | nil => intro h; cases h
  | cons w rest ih =>
    intro hz hcount
    rw [List.countP_cons] at hcount
    by_cases hw : (w.id == z.id) = true
    · rw [if_pos hw] at hcount
      have hrest0 : rest.countP (fun w => w.id == z.id) = 0 := by omega
      have hwz : w = z := by
        rcases List.mem_cons.mp hz with rfl | hzrest
        · rfl
        · exfalso
          have hpos : 0 < rest.countP (fun w => w.id == z.id) :=
            List.countP_pos_iff.mpr ⟨z, hzrest, by simp⟩
          omega
      subst hwz
      unfold breaches_for check_breach
      simp only [List.filterMap_cons]
      have hrest := breaches_for_of_countP_zero dtb loc w.id rest hrest0
      unfold breaches_for check_breach at hrest
      cases hzb : zone_breach dtb w loc with
      | none =>
        simpa using hrest
      | some b =>
        have hbid : (b.zone_id == w.id) = true := by
          rw [zone_breach_zone_id dtb w loc b hzb]
          simp
        simp only [List.filter_cons, hbid, if_true]
        rw [hrest]
        rfl
    · rw [if_neg hw] at hcount
      have hrest1 : rest.countP (fun w => w.id == z.id) = 1 := by omega
      have hzrest : z ∈ rest := by
        rcases List.mem_cons.mp hz with rfl | h
        · exact absurd (by simp : (z.id == z.id) = true) hw
        · exact h
      unfold breaches_for check_breach at ih ⊢
      simp only [List.filterMap_cons]
      cases hzb : zone_breach dtb w loc with
      | none => exact ih hzrest hrest1
      | some b =>
        have hbid : (b.zone_id == z.id) = false := by
          rw [zone_breach_zone_id dtb w loc b hzb]
          exact Bool.not_eq_true _ ▸ hw
        simp only [List.filter_cons, hbid, Bool.false_eq_true, if_false]
        exact ih hzrest hrest1

theorem zone_breach_keep_out (dtb : Location → List Location → Rat)
    (z : Geofence) (loc : Location)
    (hact : z.active = true)
    (h1 : z.min_altitude ≤ loc.alt) (h2 : loc.alt ≤ z.max_altitude)
    (htype : z.type = "keep-out") (hin : point_in_polygon loc z.polygon = true) :
    zone_breach dtb z loc
      = some { zone_id := z.id, zone_name := z.name, type := "entry_breach",
               severity := "critical", action := "RTL", priority := z.priority } := by
  simp [zone_breach, hact, h1, h2, htype, hin]

theorem zone_breach_keep_in (dtb : Location → List Location → Rat)
    (z : Geofence) (loc : Location)
    (hact : z.active = true)
    (h1 : z.min_altitude ≤ loc.alt) (h2 : loc.alt ≤ z.max_altitude)
    (htype : z.type = "keep-in") (hout : point_in_polygon loc z.polygon = false) :
    zone_breach dtb z loc
      = some { zone_id := z.id, zone_name := z.name, type := "exit_breach",
               severity := "critical", action := "RTL", priority := z.priority } := by
  have hne : ¬ (z.type = "keep-out") := by
    rw [htype]
    decide
  simp [zone_breach, hact, h1, h2, hne, htype, hout]

theorem zone_breach_no_match (dtb : Location → List Location → Rat)
    (z : Geofence) (loc : Location)
    (hw : z.type ≠ "warning")
    (hko : ¬(z.type = "keep-out" ∧ point_in_polygon loc z.polygon = true))
    (hki : ¬(z.type = "keep-in" ∧ point_in_polygon loc z.polygon = false)) :
    zone_breach dtb z loc = none := by
  have hw2 : ¬(z.type = "warning" ∧ point_in_polygon loc z.polygon = true) :=
    fun h => hw h.1
  simp [zone_breach, hko, hki, hw2]

theorem zone_breach_alt_skip (dtb : Location → List Location → Rat)
    (z : Geofence) (loc : Location)
    (halt : ¬(z.min_altitude ≤ loc.alt ∧ loc.alt ≤ z.max_altitude)) :
    zone_breach dtb z loc = none := by
  simp [zone_breach, halt]

/-- C3: for a zone `z` occurring (with a unique id) in the zone set, at a
location whose altitude lies within the zone's altitude bounds while the zone
is active: if `z` is keep-out and the location is inside its polygon,
`check_breach` reports exactly one breach for `z`, with type `entry_breach`,
severity `critical`, action `RTL`; if `z` is keep-in and the location is not
inside, exactly one `exit_breach` with severity `critical` and action `RTL`;
if `z` is not a warning zone and matches neither rule, no breach for `z`; and
a zone whose altitude bounds exclude the location contributes no breach. -/
theorem check_breach_classification
    (dtb : Location → List Location → Rat) (zones : List Geofence)
    (z : Geofence) (loc : Location)
    (hz : z ∈ zones) (hu : zones.countP (fun w => w.id == z.id) = 1) :
    (z.active = true → z.min_altitude ≤ loc.alt → loc.alt ≤ z.max_altitude →
      ((z.type = "keep-out" → point_in_polygon loc z.polygon = true →
          breaches_for dtb zones loc z.id
            = [{ zone_id := z.id, zone_name := z.name, type := "entry_breach",
                 severity := "critical", action := "RTL", priority := z.priority }]) ∧
        (z.type = "keep-in" → point_in_polygon loc z.polygon = false →
          breaches_for dtb zones loc z.id
            = [{ zone_id := z.id, zone_name := z.name, type := "exit_breach",
                 severity := "critical", action := "RTL", priority := z.priority }]) ∧
        (z.type ≠ "warning" →
          ¬(z.type = "keep-out" ∧ point_in_polygon loc z.polygon = true) →
          ¬(z.type = "keep-in" ∧ point_in_polygon loc z.polygon = false) →
          breaches_for dtb zones loc z.id = []))) ∧
    (¬(z.min_altitude ≤ loc.alt ∧ loc.alt ≤ z.max_altitude) →
      breaches_for dtb zones loc z.id = []) := by
  have hkey := breaches_for_unique dtb loc z zones hz hu
  refine ⟨fun hact ha1 ha2 => ⟨?_, ?_, ?_⟩, ?_⟩
  · intro htype hin
    rw [hkey, zone_breach_keep_out dtb z loc hact ha1 ha2 htype hin]
    rfl
  · intro htype hout
    rw [hkey, zone_breach_keep_in dtb z loc hact ha1 ha2 htype hout]
    rfl
  · intro hwt hko hki
    rw [hkey, zone_breach_no_match dtb z loc hwt hko hki]
    rfl
  · intro halt
    rw [hkey, zone_breach_alt_skip dtb z loc halt]
    rfl

/-- A concrete keep-out zone over the square polygon, for the C3 witness. -/
def keepOutZone : Geofence :=
  { id := "GF1", name := "test keep-out", type := "keep-out",
    polygon := squarePolygon }

/-- A trivial stand-in for the abstract distance-to-boundary function. -/
def zeroDtb : Location → List Location → Rat := fun _ _ => 0

/-- Witness for C3 at the concrete keep-out zone and the interior point
(5, 5, 50): the hypotheses hold and `check_breach` reports exactly the
critical entry breach with action RTL. -/
theorem check_breach_classification_witness :
    (keepOutZone ∈ [keepOutZone] ∧
      [keepOutZone].countP (fun w => w.id == keepOutZone.id) = 1) ∧
    (keepOutZone.active = true → keepOutZone.min_altitude ≤ (50 : Rat) →
      (50 : Rat) ≤ keepOutZone.max_altitude →
      ((keepOutZone.type = "keep-out" →
          point_in_polygon ⟨5, 5, 50⟩ keepOutZone.polygon = true →
          breaches_for zeroDtb [keepOutZone] ⟨5, 5, 50⟩ keepOutZone.id
            = [{ zone_id := keepOutZone.id, zone_name := keepOutZone.name,
                 type := "entry_breach", severity := "critical",
                 action := "RTL", priority := keepOutZone.priority }]) ∧
        (keepOutZone.type = "keep-in" →
          point_in_polygon ⟨5, 5, 50⟩ keepOutZone.polygon = false →
          breaches_for zeroDtb [keepOutZone] ⟨5, 5, 50⟩ keepOutZone.id
            = [{ zone_id := keepOutZone.id, zone_name := keepOutZone.name,
                 type := "exit_breach", severity := "critical",
                 action := "RTL", priority := keepOutZone.priority }]) ∧
        (keepOutZone.type ≠ "warning" →
          ¬(keepOutZone.type = "keep-out" ∧
              point_in_polygon ⟨5, 5, 50⟩ keepOutZone.polygon = true) →
          ¬(keepOutZone.type = "keep-in" ∧
              point_in_polygon ⟨5, 5, 50⟩ keepOutZone.polygon = false) →
          breaches_for zeroDtb [keepOutZone] ⟨5, 5, 50⟩ keepOutZone.id = []))) ∧
    (¬(keepOutZone.min_altitude ≤ (50 : Rat) ∧
        (50 : Rat) ≤ keepOutZone.max_altitude) →
      breaches_for zeroDtb [keepOutZone] ⟨5, 5, 50⟩ keepOutZone.id = []) :=
  ⟨⟨by decide, by decide⟩,
    (check_breach_classification zeroDtb [keepOutZone] keepOutZone ⟨5, 5, 50⟩
        (by decide) (by decide)).1,
    (check_breach_classification zeroDtb [keepOutZone] keepOutZone ⟨5, 5, 50⟩
        (by decide) (by decide)).2⟩

/-- Vehicle capabilities mirroring the `VehicleCapabilities` dataclass with
its source defaults. -/
structure VehicleCapabilities where
  max_speed : Rat := 15
  max_altitude : Rat := 500
  max_range : Rat := 10000
  cruise_speed : Rat := 10
  endurance : Rat := 30
  payload_capacity : Rat := 2
  sensors : List String := []
deriving DecidableEq, Repr

/-- Vehicle status mirroring the `VehicleStatus` enum. -/
inductive VehicleStatus where
  | idle
  | armed
  | flying
  | landing
  | emergency
  | offline
deriving DecidableEq, Repr

/-- Vehicle type mirroring the `VehicleType` enum. -/
inductive VehicleType where
  | multi_rotor
  | fixed_wing
  | vtol
deriving DecidableEq, Repr

/-- Vehicle record mirroring the `Vehicle` dataclass (the `last_update`
timestamp and the free-form metadata map are omitted; no verified claim
mentions them). -/
structure Vehicle where
  id : String
  type : VehicleType
  status : VehicleStatus
  location : Location
  battery : Rat
  capabilities : VehicleCapabilities
  mission_id : Option String := none
  mission_progress : Rat := 0
deriving DecidableEq, Repr

/-- The state of `VehicleManagerModule` relevant to registration: the vehicle
dictionary (insertion-ordered association list, as a Python dict) and the
stream of event types the module has published on the router. -/
structure RegistryState where
  vehicles : List (String × Vehicle)
  published : List String := []
deriving DecidableEq, Repr

/-- `VehicleManagerModule.register_vehicle`: if the vehicle id is already a
key of the dictionary, return `False` (no exception is raised — the model is
a total function) leaving the dictionary and the published-event stream
untouched; otherwise store the vehicle, publish a `vehicle.registered` event,
and return `True`.  (Mirroring into the state store is not modelled.) -/
def register_vehicle (st : RegistryState) (v : Vehicle) : Bool × RegistryState :=
  if (lookupSubs st.vehicles v.id).isSome then
    (false, st)
  else
    (true, { vehicles := st.vehicles ++ [(v.id, v)],
             published := st.published ++ ["vehicle.registered"] })

/-- `VehicleManagerModule.get_vehicle`: dictionary lookup by id. -/
def get_vehicle (st : RegistryState) (vehicle_id : String) : Option Vehicle :=
  lookupSubs st.vehicles vehicle_id

theorem lookupSubs_append_of_none {α : Type} :
    ∀ (l : List (String × α)) (k : String) (v : α),
      lookupSubs l k = none → lookupSubs (l ++ [(k, v)]) k = some v := by
  intro l
  induction l with
  | nil =>
    intro k v _
    simp [lookupSubs]
  | cons kv rest ih =>
    intro k v h
    obtain ⟨k0, v0⟩ := kv
    by_cases hk : k0 = k
    · simp [lookupSubs, hk] at h
    · simp only [List.cons_append, lookupSubs, if_neg hk] at h ⊢
      exact ih k v h

/-- C8: when the vehicle's id is already a key of the registry,
`register_vehicle` returns `false` without raising (the model is total) and
the whole registry state — vehicle dictionary and published events — is
unchanged, so no `vehicle.registered` event is published; when the id is
fresh, it returns `true`, the vehicle becomes retrievable via `get_vehicle`,
and exactly one `vehicle.registered` event is appended to the published
stream. -/
theorem register_vehicle_spec (st : RegistryState) (v : Vehicle) :
    ((lookupSubs st.vehicles v.id).isSome = true →
      register_vehicle st v = (false, st)) ∧
    (lookupSubs st.vehicles v.id = none →
      (register_vehicle st v).1 = true ∧
      get_vehicle (register_vehicle st v).2 v.id = some v ∧
      (register_vehicle st v).2.published
        = st.published ++ ["vehicle.registered"]) := by
  constructor
  · intro h
    simp [register_vehicle, h]
  · intro h
    have hns : (lookupSubs st.vehicles v.id).isSome = false := by
      simp [h]
    refine ⟨?_, ?_, ?_⟩ <;>
      simp [register_vehicle, get_vehicle, hns,
        lookupSubs_append_of_none st.vehicles v.id v h]

/-- A concrete idle multi-rotor vehicle for the C8 witness. -/
def vehicleA : Vehicle :=
  { id := "V1", type := .multi_rotor, status := .idle,
    location := ⟨0, 0, 0⟩, battery := 100, capabilities := {} }

/-- A second vehicle with a fresh id for the C8 witness. -/
def vehicleB : Vehicle :=
  { vehicleA with id := "V2" }

/-- Witness for C8: with `V1` registered, re-registering `vehicleA` fails and
changes nothing, while registering `vehicleB` succeeds, makes it retrievable,
and publishes `vehicle.registered`. -/
theorem register_vehicle_spec_witness :
    ((lookupSubs [("V1", vehicleA)] vehicleA.id).isSome = true ∧
      register_vehicle ⟨[("V1", vehicleA)], []⟩ vehicleA
        = (false, ⟨[("V1", vehicleA)], []⟩)) ∧
    (lookupSubs [("V1", vehicleA)] vehicleB.id = none ∧
      ((register_vehicle ⟨[("V1", vehicleA)], []⟩ vehicleB).1 = true ∧
        get_vehicle (register_vehicle ⟨[("V1", vehicleA)], []⟩ vehicleB).2
          vehicleB.id = some vehicleB ∧
        (register_vehicle ⟨[("V1", vehicleA)], []⟩ vehicleB).2.published
          = ([] : List String) ++ ["vehicle.registered"])) :=
  ⟨⟨by decide,
      (register_vehicle_spec ⟨[("V1", vehicleA)], []⟩ vehicleA).1 (by decide)⟩,
    ⟨by decide,
      (register_vehicle_spec ⟨[("V1", vehicleA)], []⟩ vehicleB).2 (by decide)⟩⟩

/-- The slice of the `Mission` dataclass that
`MissionPlanner.validate_mission` reads: the waypoint list together with the
`required_sensors` entry of the metadata map (the only metadata key the
validator consults; absent key defaults to the empty list, as
`metadata.get('required_sensors', [])` does). -/
structure MissionV where
  waypoints : List Waypoint
  required_sensors : List String := []
deriving DecidableEq, Repr

/-- `MissionPlanner._calculate_path_distance`: sum of the distances of
consecutive waypoint legs, with the haversine distance abstracted as `hav`. -/
def calculate_path_distance (hav : Location → Location → Rat)
    (waypoints : List Waypoint) : Rat :=
  (waypoints.zip waypoints.tail).foldl
    (fun acc p => acc + hav ⟨p.1.lat, p.1.lon, p.1.alt⟩ ⟨p.2.lat, p.2.lon, p.2.alt⟩) 0

/-- The distinct kinds of issue message `validate_mission` appends, one
constructor per formatted message of the source. -/
inductive VIssue where
  | altitude_exceeded (sequence : Nat)
  | insufficient_battery
  | geofence_violation (sequence : Nat) (zone_name : String)
deriving DecidableEq, Repr

/-- The distinct kinds of warning message `validate_mission` appends. -/
inductive VWarning where
  | warning_zone (sequence : Nat) (zone_name : String)
  | missing_sensor (sensor : String)
deriving DecidableEq, Repr

/-- The validation result dictionary of `validate_mission`. -/
structure ValidationResult where
  valid : Bool
  issues : List VIssue
  warnings : List VWarning
  total_distance : Rat
  required_battery : Rat
  estimated_time : Rat
deriving DecidableEq, Repr

/-- Step 1 of `validate_mission`: one issue per waypoint whose altitude
exceeds the vehicle's maximum altitude. -/
def altitude_issues (mission : MissionV) (vehicle : Vehicle) : List VIssue :=
  mission.waypoints.filterMap fun wp =>
    if wp.alt > vehicle.capabilities.max_altitude then
      some (VIssue.altitude_exceeded wp.sequence)
    else none

/-- Step 2 of `validate_mission`: the required battery percentage
`(total_distance / max_range) * 100`. -/
def required_battery_of (hav : Location → Location → Rat)
    (mission : MissionV) (vehicle : Vehicle) : Rat :=
  calculate_path_distance hav mission.waypoints / vehicle.capabilities.max_range * 100

/-- Step 2 of `validate_mission`, continued: the insufficient-battery issue is
added exactly when `vehicle.battery < required_battery * 1.2` (the float
literal `1.2` is the rational 6/5). -/
def battery_issues (hav : Location → Location → Rat)
    (mission : MissionV) (vehicle : Vehicle) : List VIssue :=
  if vehicle.battery < required_battery_of hav mission vehicle * (6 / 5) then
    [VIssue.insufficient_battery]
  else []

/-- Step 3 of `validate_mission`: per waypoint, a critical breach reported by
`check_breach` becomes an issue. -/
def geofence_issues (dtb : Location → List Location → Rat)
    (zones : List Geofence) (mission : MissionV) : List VIssue :=
  mission.waypoints.flatMap fun wp =>
    (check_breach dtb zones ⟨wp.lat, wp.lon, wp.alt⟩).filterMap fun b =>
      if b.severity = "critical" then
        some (VIssue.geofence_violation wp.sequence b.zone_name)
      else none

/-- Step 3 of `validate_mission`, continued: a non-critical breach becomes a
warning. -/
def geofence_warnings (dtb : Location → List Location → Rat)
    (zones : List Geofence) (mission : MissionV) : List VWarning :=
  mission.waypoints.flatMap fun wp =>
    (check_breach dtb zones ⟨wp.lat, wp.lon, wp.alt⟩).filterMap fun b =>
      if b.severity = "critical" then none
      else some (VWarning.warning_zone wp.sequence b.zone_name)

/-- Step 4 of `validate_mission`: a warning per required sensor missing from
the vehicle's sensor list. -/
def sensor_warnings (mission : MissionV) (vehicle : Vehicle) : List VWarning :=
  mission.required_sensors.filterMap fun s =>
    if vehicle.capabilities.sensors.contains s then none
    else some (VWarning.missing_sensor s)

/-- `MissionPlanner.validate_mission`: issues in source append order
(altitude, battery, geofence), warnings in source append order (geofence,
sensors), `valid = (len(issues) == 0)`, and the computed statistics. -/
def validate_mission (hav : Location → Location → Rat)
    (dtb : Location → List Location → Rat) (zones : List Geofence)
    (mission : MissionV) (vehicle : Vehicle) : ValidationResult :=
  { valid := (altitude_issues mission vehicle ++ battery_issues hav mission vehicle
      ++ geofence_issues dtb zones mission).isEmpty,
    issues := altitude_issues mission vehicle ++ battery_issues hav mission vehicle
      ++ geofence_issues dtb zones mission,
    warnings := geofence_warnings dtb zones mission ++ sensor_warnings mission vehicle,
    total_distance := calculate_path_distance hav mission.waypoints,
    required_battery := required_battery_of hav mission vehicle,
    estimated_time := calculate_path_distance hav mission.waypoints
      / vehicle.capabilities.cruise_speed }

theorem insufficient_battery_not_mem_altitude (mission : MissionV) (vehicle : Vehicle) :
    VIssue.insufficient_battery ∉ altitude_issues mission vehicle := by
  intro h
  simp only [altitude_issues, List.mem_filterMap] at h
  obtain ⟨wp, _, hf⟩ := h
  by_cases hc : wp.alt > vehicle.capabilities.max_altitude
  · rw [if_pos hc] at hf
    simp at hf
  · rw [if_neg hc] at hf
    cases hf

theorem insufficient_battery_not_mem_geofence (dtb : Location → List Location → Rat)
    (zones : List Geofence) (mission : MissionV) :
    VIssue.insufficient_battery ∉ geofence_issues dtb zones mission := by
  intro h
  simp only [geofence_issues, List.mem_flatMap, List.mem_filterMap] at h
  obtain ⟨wp, _, b, _, hf⟩ := h
  by_cases hc : b.severity = "critical"
  · rw [if_pos hc] at hf
    simp at hf
  · rw [if_neg hc] at hf
    cases hf

theorem insufficient_battery_mem_battery_iff (hav : Location → Location → Rat)
    (mission : MissionV) (vehicle : Vehicle) :
    (VIssue.insufficient_battery ∈ battery_issues hav mission vehicle
      ↔ vehicle.battery < required_battery_of hav mission vehicle * (6 / 5)) := by
  unfold battery_issues
  by_cases hc : vehicle.battery < required_battery_of hav mission vehicle * (6 / 5)
  · simp [hc]
  · simp [hc]

/-- C4: under the faithfulness side condition `0 < max_range` (the source
divides by `max_range`, so `max_range = 0` would raise in Python rather than
produce a value): `validate_mission` computes `required_battery` as
`(total_distance / max_range) * 100`; the insufficient-battery issue is
present iff `battery < required_battery * 1.2`; `valid` holds iff the issue
list is empty; and the `required_sensors` metadata influences neither the
issues nor `valid` — it only appends one missing-sensor warning per required
sensor the vehicle lacks, after the geofence warnings. -/
theorem validate_mission_spec (hav : Location → Location → Rat)
    (dtb : Location → List Location → Rat) (zones : List Geofence)
    (mission : MissionV) (vehicle : Vehicle)
    (hrange : 0 < vehicle.capabilities.max_range) :
    (validate_mission hav dtb zones mission vehicle).required_battery
      = calculate_path_distance hav mission.waypoints
          / vehicle.capabilities.max_range * 100 ∧
    (VIssue.insufficient_battery
        ∈ (validate_mission hav dtb zones mission vehicle).issues
      ↔ vehicle.battery
          < (validate_mission hav dtb zones mission vehicle).required_battery
              * (6 / 5)) ∧
    ((validate_mission hav dtb zones mission vehicle).valid = true
      ↔ (validate_mission hav dtb zones mission vehicle).issues = []) ∧
    (validate_mission hav dtb zones mission vehicle).issues
      = (validate_mission hav dtb zones
          { mission with required_sensors := [] } vehicle).issues ∧
    (validate_mission hav dtb zones mission vehicle).valid
      = (validate_mission hav dtb zones
          { mission with required_sensors := [] } vehicle).valid ∧
    (validate_mission hav dtb zones mission vehicle).warnings
      = (validate_mission hav dtb zones
          { mission with required_sensors := [] } vehicle).warnings
        ++ sensor_warnings mission vehicle := by
  have hA := insufficient_battery_not_mem_altitude mission vehicle
  have hG := insufficient_battery_not_mem_geofence dtb zones mission
  have hB := insufficient_battery_mem_battery_iff hav mission vehicle
  refine ⟨rfl, ?_, ?_, rfl, rfl, ?_⟩
  · simp only [validate_mission, List.mem_append]
    constructor
    · rintro ((h | h) | h)
      · exact absurd h hA
      · exact hB.mp h
      · exact absurd h hG
    · intro h
      exact Or.inl (Or.inr (hB.mpr h))
  · simp only [validate_mission]
    exact List.isEmpty_iff
  · simp [validate_mission, sensor_warnings, geofence_warnings]

/-- A concrete haversine stand-in assigning every leg length 1000 m. -/
def constHav : Location → Location → Rat := fun _ _ => 1000

/-- Concrete mission for the C4 witness: two waypoints, one required sensor. -/
def missionW : MissionV :=
  { waypoints :=
      [{ lat := 0, lon := 0, alt := 50, sequence := 0 },
        { lat := 0, lon := 1, alt := 50, sequence := 1 }],
    required_sensors := ["LiDAR"] }

/-- Concrete vehicle for the C4 witness: battery 100, max range 5000, no
sensors. -/
def vehicleW : Vehicle :=
  { id := "VW", type := .multi_rotor, status := .idle,
    location := ⟨0, 0, 0⟩, battery := 100,
    capabilities := { max_range := 5000, sensors := [] } }

/-- Witness for C4 at a concrete mission and vehicle with positive maximum
range. -/
theorem validate_mission_spec_witness :
    (0 : Rat) < vehicleW.capabilities.max_range ∧
    ((validate_mission constHav zeroDtb [] missionW vehicleW).required_battery
        = calculate_path_distance constHav missionW.waypoints
            / vehicleW.capabilities.max_range * 100 ∧
      (VIssue.insufficient_battery
          ∈ (validate_mission constHav zeroDtb [] missionW vehicleW).issues
        ↔ vehicleW.battery
            < (validate_mission constHav zeroDtb [] missionW vehicleW).required_battery
                * (6 / 5)) ∧
      ((validate_mission constHav zeroDtb [] missionW vehicleW).valid = true
        ↔ (validate_mission constHav zeroDtb [] missionW vehicleW).issues = []) ∧
      (validate_mission constHav zeroDtb [] missionW vehicleW).issues
        = (validate_mission constHav zeroDtb []
            { missionW with required_sensors := [] } vehicleW).issues ∧
      (validate_mission constHav zeroDtb [] missionW vehicleW).valid
        = (validate_mission constHav zeroDtb []
            { missionW with required_sensors := [] } vehicleW).valid ∧
      (validate_mission constHav zeroDtb [] missionW vehicleW).warnings
        = (validate_mission constHav zeroDtb []
            { missionW with required_sensors := [] } vehicleW).warnings
          ++ sensor_warnings missionW vehicleW) :=
  ⟨by decide,
    validate_mission_spec constHav zeroDtb [] missionW vehicleW (by decide)⟩

/-- `MissionPlanner._generate_corridor_pattern`, with the transcendental
helpers abstracted: `brg` abstracts `_calculate_bearing` (atan2-based) and
`cosd`/`sind` abstract `math.cos(math.radians(.))` and
`math.sin(math.radians(.))`.  The `segments` parameter is received but never
used, exactly as in the source; the three parallel lines are generated at the
perpendicular offsets `-width/2, 0, width/2`. -/
def generate_corridor_pattern (cosd sind : Rat → Rat)
    (brg : Location → Location → Rat) (start stop : Location)
    (width altitude : Rat) (segments : Nat) : List Waypoint :=
  let bearing := brg start stop
  let offsets := [-(width / 2), 0, width / 2]
  offsets.foldl
    (fun wps offset =>
      let perp_bearing := bearing + 90
      let lat_offset := offset / 111320 * cosd perp_bearing
      let lon_offset := offset / (111320 * cosd start.lat) * sind perp_bearing
      wps ++
        [{ lat := start.lat + lat_offset, lon := start.lon + lon_offset,
           alt := altitude, sequence := wps.length },
         { lat := stop.lat + lat_offset, lon := stop.lon + lon_offset,
           alt := altitude, sequence := wps.length + 1 }])
    []

/-- The mission record built by `MissionPlanner.create_corridor_mission`:
its waypoint list and its metadata entries (`corridor_width`, `distance`,
`estimated_time`, `segments`; the generated id and the constant name carry no
information). -/
structure CorridorMission where
  waypoints : List Waypoint
  corridor_width : Rat
  distance : Rat
  estimated_time : Rat
  segments : Nat
deriving DecidableEq, Repr

/-- `MissionPlanner.create_corridor_mission`: waypoints from the corridor
pattern; metadata width, start-to-end distance (haversine, abstracted by
`hav`), estimated time at speed 15, and the stored `segments` value. -/
def create_corridor_mission (cosd sind : Rat → Rat)
    (brg : Location → Location → Rat) (hav : Location → Location → Rat)
    (start stop : Location) (width altitude : Rat) (segments : Nat) :
    CorridorMission :=
  { waypoints :=
      generate_corridor_pattern cosd sind brg start stop width altitude segments,
    corridor_width := width,
    distance := hav start stop,
    estimated_time := hav start stop / 15,
    segments := segments }

/-- C7: for every start, end, width, altitude and segments input (and every
instantiation of the abstracted trigonometric helpers),
`create_corridor_mission` produces exactly 6 waypoints — a start/end pair at
each perpendicular offset `-width/2`, `0`, `width/2` from the start-to-end
bearing — and the whole mission is independent of `segments` except for the
`segments` metadata entry itself. -/
theorem create_corridor_mission_six_waypoints (cosd sind : Rat → Rat)
    (brg : Location → Location → Rat) (hav : Location → Location → Rat)
    (start stop : Location) (width altitude : Rat) (segments : Nat) :
    (create_corridor_mission cosd sind brg hav start stop width altitude
        segments).waypoints.length = 6 ∧
    (create_corridor_mission cosd sind brg hav start stop width altitude
        segments).waypoints
      = [{ lat := start.lat + -(width / 2) / 111320 * cosd (brg start stop + 90),
           lon := start.lon + -(width / 2) / (111320 * cosd start.lat)
              * sind (brg start stop + 90),
           alt := altitude, sequence := 0 },
         { lat := stop.lat + -(width / 2) / 111320 * cosd (brg start stop + 90),
           lon := stop.lon + -(width / 2) / (111320 * cosd start.lat)
              * sind (brg start stop + 90),
           alt := altitude, sequence := 1 },
         { lat := start.lat + 0 / 111320 * cosd (brg start stop + 90),
           lon := start.lon + 0 / (111320 * cosd start.lat)
              * sind (brg start stop + 90),
           alt := altitude, sequence := 2 },
         { lat := stop.lat + 0 / 111320 * cosd (brg start stop + 90),
           lon := stop.lon + 0 / (111320 * cosd start.lat)
              * sind (brg start stop + 90),
           alt := altitude, sequence := 3 },
         { lat := start.lat + width / 2 / 111320 * cosd (brg start stop + 90),
           lon := start.lon + width / 2 / (111320 * cosd start.lat)
              * sind (brg start stop + 90),
           alt := altitude, sequence := 4 },
         { lat := stop.lat + width / 2 / 111320 * cosd (brg start stop + 90),
           lon := stop.lon + width / 2 / (111320 * cosd start.lat)
              * sind (brg start stop + 90),
           alt := altitude, sequence := 5 }] ∧
    create_corridor_mission cosd sind brg hav start stop width altitude segments
      = { create_corridor_mission cosd sind brg hav start stop width altitude 0
          with segments := segments } := by
  exact ⟨rfl, rfl, rfl⟩

/-- Minimum of a non-empty list of rationals (`min(xs)` in Python). -/
def listMin (x : Rat) (xs : List Rat) : Rat := xs.foldl min x

/-- Maximum of a non-empty list of rationals (`max(xs)` in Python). -/
def listMax (x : Rat) (xs : List Rat) : Rat := xs.foldl max x

/-- The even-row inner loop of `MissionPlanner._generate_grid_pattern`
(`current_lon = min_lon; while current_lon < max_lon: append waypoint;
current_lon += lon_spacing`), with explicit fuel: `none` means the fuel ran
out while the loop condition was still true (the loop is still running),
`some (seq, acc)` means the loop finished with that sequence counter and
waypoint accumulator. -/
def eastLoop (maxLon lonStep lat altitude : Rat) :
    Nat → Rat → Nat → List Waypoint → Option (Nat × List Waypoint)
  | 0, curLon, seq, acc =>
    if curLon < maxLon then none else some (seq, acc)
  | fuel + 1, curLon, seq, acc =>
    if curLon < maxLon then
      eastLoop maxLon lonStep lat altitude fuel (curLon + lonStep) (seq + 1)
        (acc ++ [{ lat := lat, lon := curLon, alt := altitude, sequence := seq }])
    else some (seq, acc)

/-- The odd-row inner loop of `_generate_grid_pattern`
(`current_lon = max_lon; while current_lon > min_lon: append waypoint;
current_lon -= lon_spacing`), fueled like `eastLoop`. -/
def westLoop (minLon lonStep lat altitude : Rat) :
    Nat → Rat → Nat → List Waypoint → Option (Nat × List Waypoint)
  | 0, curLon, seq, acc =>
    if curLon > minLon then none else some (seq, acc)
  | fuel + 1, curLon, seq, acc =>
    if curLon > minLon then
      westLoop minLon lonStep lat altitude fuel (curLon - lonStep) (seq + 1)
        (acc ++ [{ lat := lat, lon := curLon, alt := altitude, sequence := seq }])
    else some (seq, acc)

/-- The outer row loop of `_generate_grid_pattern`
(`while current_lat < max_lat`): scan east on even rows and west on odd rows,
then advance the latitude cursor by `lat_spacing` and the row counter by one.
Fueled; every row gets `innerFuel` fuel for its inner loop. -/
def rowLoop (maxLat minLon maxLon latStep lonStep altitude : Rat)
    (innerFuel : Nat) :
    Nat → Rat → Nat → Nat → List Waypoint → Option (List Waypoint)
  | 0, curLat, _, _, acc =>
    if curLat < maxLat then none else some acc
  | fuel + 1, curLat, lineNum, seq, acc =>
    if curLat < maxLat then
      match (if lineNum % 2 = 0 then
              eastLoop maxLon lonStep curLat altitude innerFuel minLon seq acc
            else
              westLoop minLon lonStep curLat altitude innerFuel maxLon seq acc) with
      | none => none
      | some (seq2, acc2) =>
        rowLoop maxLat minLon maxLon latStep lonStep altitude innerFuel fuel
          (curLat + latStep) (lineNum + 1) seq2 acc2
    else some acc

/-- `MissionPlanner._generate_grid_pattern`: bounding box of the AOI polygon,
`effective_spacing = spacing * (1 - overlap)`,
`lat_spacing = effective_spacing / 111320`,
`lon_spacing = effective_spacing / (111320 * c)` where the parameter `c`
abstracts the transcendental `math.cos(math.radians((min_lat + max_lat) / 2))`,
then the fueled boustrophedon double loop.  An empty polygon is `none`
(`min(lats)` raises in Python). -/
def generate_grid_pattern (c : Rat) (polygon : List Location)
    (spacing altitude overlap : Rat) (rowFuel innerFuel : Nat) :
    Option (List Waypoint) :=
  match polygon with
  | [] => none
  | p :: ps =>
    let min_lat := listMin p.lat (ps.map fun q => q.lat)
    let max_lat := listMax p.lat (ps.map fun q => q.lat)
    let min_lon := listMin p.lon (ps.map fun q => q.lon)
    let max_lon := listMax p.lon (ps.map fun q => q.lon)
    let effective_spacing := spacing * (1 - overlap)
    let lat_spacing := effective_spacing / 111320
    let lon_spacing := effective_spacing / (111320 * c)
    rowLoop max_lat min_lon max_lon lat_spacing lon_spacing altitude innerFuel
      rowFuel min_lat 0 0 []

theorem eastLoop_term (maxLon lonStep lat altitude : Rat) (hstep : 0 < lonStep) :
    ∀ (k : Nat) (cur : Rat),
      (Int.ceil ((maxLon - cur) / lonStep)).toNat ≤ k →
      ∀ (seq : Nat) (acc : List Waypoint),
        ∃ r, eastLoop maxLon lonStep lat altitude k cur seq acc = some r := by
  intro k
  induction k with
  | zero =>
    intro cur hk seq acc
    by_cases hc : cur < maxLon
    · exfalso
      have hpos : 0 < (maxLon - cur) / lonStep := div_pos (by linarith) hstep
      have hcpos : 0 < Int.ceil ((maxLon - cur) / lonStep) := Int.ceil_pos.mpr hpos
      omega
    · exact ⟨(seq, acc), by simp [eastLoop, hc]⟩
  | succ k ih =>
    intro cur hk seq acc
    by_cases hc : cur < maxLon
    · have hpos : 0 < (maxLon - cur) / lonStep := div_pos (by linarith) hstep
      have hcpos : 0 < Int.ceil ((maxLon - cur) / lonStep) := Int.ceil_pos.mpr hpos
      have hdiv : (maxLon - (cur + lonStep)) / lonStep
          = (maxLon - cur) / lonStep - 1 := by
        rw [show maxLon - (cur + lonStep) = (maxLon - cur) - lonStep by ring,
          sub_div, div_self (ne_of_gt hstep)]
      have hmeas : (Int.ceil ((maxLon - (cur + lonStep)) / lonStep)).toNat ≤ k := by
        rw [hdiv, Int.ceil_sub_one]
        omega
      obtain ⟨r, hr⟩ := ih (cur + lonStep) hmeas (seq + 1)
        (acc ++ [{ lat := lat, lon := cur, alt := altitude, sequence := seq }])
      refine ⟨r, ?_⟩
      simp only [eastLoop, if_pos hc]
      exact hr
    · exact ⟨(seq, acc), by simp [eastLoop, hc]⟩

theorem westLoop_term (minLon lonStep lat altitude : Rat) (hstep : 0 < lonStep) :
    ∀ (k : Nat) (cur : Rat),
      (Int.ceil ((cur - minLon) / lonStep)).toNat ≤ k →
      ∀ (seq : Nat) (acc : List Waypoint),
        ∃ r, westLoop minLon lonStep lat altitude k cur seq acc = some r := by
  intro k
  induction k with
  | zero =>
    intro cur hk seq acc
    by_cases hc : cur > minLon
    · exfalso
      have hpos : 0 < (cur - minLon) / lonStep := div_pos (by linarith) hstep
      have hcpos : 0 < Int.ceil ((cur - minLon) / lonStep) := Int.ceil_pos.mpr hpos
      omega
    · exact ⟨(seq, acc), by simp [westLoop, hc]⟩
  | succ k ih =>
    intro cur hk seq acc
    by_cases hc : cur > minLon
    · have hpos : 0 < (cur - minLon) / lonStep := div_pos (by linarith) hstep
      have hcpos : 0 < Int.ceil ((cur - minLon) / lonStep) := Int.ceil_pos.mpr hpos
      have hdiv : (cur - lonStep - minLon) / lonStep
          = (cur - minLon) / lonStep - 1 := by
        rw [show cur - lonStep - minLon = (cur - minLon) - lonStep by ring,
          sub_div, div_self (ne_of_gt hstep)]
      have hmeas : (Int.ceil ((cur - lonStep - minLon) / lonStep)).toNat ≤ k := by
        rw [hdiv, Int.ceil_sub_one]
        omega
      obtain ⟨r, hr⟩ := ih (cur - lonStep) hmeas (seq + 1)
        (acc ++ [{ lat := lat, lon := cur, alt := altitude, sequence := seq }])
      refine ⟨r, ?_⟩
      simp only [westLoop, if_pos hc]
      exact hr
    · exact ⟨(seq, acc), by simp [westLoop, hc]⟩

theorem rowLoop_term (maxLat minLon maxLon latStep lonStep altitude : Rat)
    (innerFuel : Nat) (hlat : 0 < latStep) (hlon : 0 < lonStep)
    (hIF : (Int.ceil ((maxLon - minLon) / lonStep)).toNat ≤ innerFuel) :
    ∀ (k : Nat) (curLat : Rat),
      (Int.ceil ((maxLat - curLat) / latStep)).toNat ≤ k →
      ∀ (lineNum seq : Nat) (acc : List Waypoint),
        ∃ l, rowLoop maxLat minLon maxLon latStep lonStep altitude innerFuel
            k curLat lineNum seq acc = some l := by
  intro k
  induction k with
  | zero =>
    intro curLat hk lineNum seq acc
    by_cases hc : curLat < maxLat
    · exfalso
      have hpos : 0 < (maxLat - curLat) / latStep := div_pos (by linarith) hlat
      have hcpos : 0 < Int.ceil ((maxLat - curLat) / latStep) := Int.ceil_pos.mpr hpos
      omega
    · exact ⟨acc, by simp [rowLoop, hc]⟩
  | succ k ih =>
    intro curLat hk lineNum seq acc
    by_cases hc : curLat < maxLat
    · have hpos : 0 < (maxLat - curLat) / latStep := div_pos (by linarith) hlat
      have hcpos : 0 < Int.ceil ((maxLat - curLat) / latStep) := Int.ceil_pos.mpr hpos
      have hdiv : (maxLat - (curLat + latStep)) / latStep
          = (maxLat - curLat) / latStep - 1 := by
        rw [show maxLat - (curLat + latStep) = (maxLat - curLat) - latStep by ring,
          sub_div, div_self (ne_of_gt hlat)]
      have hmeas : (Int.ceil ((maxLat - (curLat + latStep)) / latStep)).toNat ≤ k := by
        rw [hdiv, Int.ceil_sub_one]
        omega
      by_cases heo : lineNum % 2 = 0
      · obtain ⟨⟨seq2, acc2⟩, hr⟩ :=
          eastLoop_term maxLon lonStep curLat altitude hlon innerFuel minLon
            (by
              have hle : maxLon - minLon ≤ maxLon - minLon := le_refl _
              exact hIF) seq acc
        obtain ⟨l, hl⟩ := ih (curLat + latStep) hmeas (lineNum + 1) seq2 acc2
        refine ⟨l, ?_⟩
        simp only [rowLoop, if_pos hc, if_pos heo, hr]
        exact hl
      · obtain ⟨⟨seq2, acc2⟩, hr⟩ :=
          westLoop_term minLon lonStep curLat altitude hlon innerFuel maxLon
            hIF seq acc
        obtain ⟨l, hl⟩ := ih (curLat + latStep) hmeas (lineNum + 1) seq2 acc2
        refine ⟨l, ?_⟩
        simp only [rowLoop, if_pos hc, if_neg heo, hr]
        exact hl
    · exact ⟨acc, by simp [rowLoop, hc]⟩

/-- C10 amended: for every non-empty AOI polygon, gridSpacing > 0 and
0 <= overlap < 1, grid generation terminates with a finite waypoint list —
the latitude cursor strictly increases by the positive effective spacing each
row until it reaches the bounding box's maximum latitude — provided the
longitude-conversion cosine `c` at the bounding box's mean latitude is
positive, as it is for every AOI whose mean latitude lies strictly between
-90 and 90 degrees. -/
theorem generate_grid_pattern_terminates (c : Rat) (polygon : List Location)
    (spacing altitude overlap : Rat) (hpoly : polygon ≠ [])
    (hspacing : 0 < spacing) (hov0 : 0 ≤ overlap) (hov1 : overlap < 1)
    (hc : 0 < c) :
    ∃ (rowFuel innerFuel : Nat) (l : List Waypoint),
      generate_grid_pattern c polygon spacing altitude overlap rowFuel
        innerFuel = some l := by
  match polygon, hpoly with
  | p :: ps, _ =>
    have heff : 0 < spacing * (1 - overlap) := mul_pos hspacing (by linarith)
    have hlat : 0 < spacing * (1 - overlap) / 111320 :=
      div_pos heff (by norm_num)
    have hlon : 0 < spacing * (1 - overlap) / (111320 * c) :=
      div_pos heff (by positivity)
    obtain ⟨l, hl⟩ := rowLoop_term
      (listMax p.lat (ps.map fun q => q.lat))
      (listMin p.lon (ps.map fun q => q.lon))
      (listMax p.lon (ps.map fun q => q.lon))
      (spacing * (1 - overlap) / 111320)
      (spacing * (1 - overlap) / (111320 * c))
      altitude
      (Int.ceil ((listMax p.lon (ps.map fun q => q.lon)
          - listMin p.lon (ps.map fun q => q.lon))
        / (spacing * (1 - overlap) / (111320 * c)))).toNat
      hlat hlon (le_refl _)
      (Int.ceil ((listMax p.lat (ps.map fun q => q.lat)
          - listMin p.lat (ps.map fun q => q.lat))
        / (spacing * (1 - overlap) / 111320))).toNat
      (listMin p.lat (ps.map fun q => q.lat))
      (le_refl _) 0 0 []
    exact ⟨_, _, l, hl⟩

theorem eastLoop_nonpos_step_none (maxLon lonStep lat altitude : Rat)
    (hstep : lonStep ≤ 0) :
    ∀ (fuel : Nat) (cur : Rat), cur < maxLon →
      ∀ (seq : Nat) (acc : List Waypoint),
        eastLoop maxLon lonStep lat altitude fuel cur seq acc = none := by
  intro fuel
  induction fuel with
  | zero =>
    intro cur hcur seq acc
    simp [eastLoop, hcur]
  | succ n ih =>
    intro cur hcur seq acc
    have h2 : cur + lonStep < maxLon := by linarith
    simp only [eastLoop, if_pos hcur]
    exact ih _ h2 _ _

/-- The diverging AOI polygon of the C10 counterexample.  Its bounding box is
[170, 190] x [0, 1] and its mean latitude is (170+190)/2 = 180, for which
Python computes `math.cos(math.radians(180.0)) = -1.0` exactly, modelled below
by instantiating the cosine parameter with `-1`. -/
def badPolygon : List Location := [⟨170, 0, 0⟩, ⟨190, 1, 0⟩]

/-- C10 counterexample: with the cosine factor `-1` produced by the
`badPolygon` AOI, gridSpacing 1 > 0 and overlap 0, the longitude step is
negative, so on the first row the inner `while current_lon < max_lon` loop
never makes progress toward `max_lon` and runs forever: no fuel makes grid
generation finish, refuting the claim that it terminates for every non-empty
polygon. -/
theorem generate_grid_divergence :
    ¬ ∃ (rowFuel innerFuel : Nat) (l : List Waypoint),
        generate_grid_pattern (-1) badPolygon 1 100 0 rowFuel innerFuel
          = some l := by
  rintro ⟨rowFuel, innerFuel, l, h⟩
  have h2 : generate_grid_pattern (-1) badPolygon 1 100 0 rowFuel innerFuel
      = none := by
    show rowLoop 190 0 1 (1 * (1 - 0) / 111320) (1 * (1 - 0) / (111320 * (-1)))
        100 innerFuel rowFuel 170 0 0 [] = none
    have hcond : (170 : Rat) < 190 := by norm_num
    have hstep : 1 * (1 - 0) / (111320 * (-1) : Rat) ≤ 0 := by norm_num
    cases rowFuel with
    | zero => simp [rowLoop, hcond]
    | succ n =>
      have heast := eastLoop_nonpos_step_none 1
        (1 * (1 - 0) / (111320 * (-1))) 170 100 hstep innerFuel 0
        (by norm_num) 0 []
      simp only [rowLoop, if_pos hcond]
      rw [if_true, heast]
  rw [h2] at h
  cases h

/-- A small, well-behaved AOI for the C10 witness. -/
def goodPolygon : List Location := [⟨0, 0, 0⟩, ⟨1, 1, 0⟩]

/-- Witness for the amended C10 theorem at a concrete AOI, spacing, overlap
and positive cosine value. -/
theorem generate_grid_pattern_terminates_witness :
    (goodPolygon ≠ [] ∧ (0 : Rat) < 50 ∧ (0 : Rat) ≤ 0 ∧
      (0 : Rat) < 1 ∧ (0 : Rat) < 1) ∧
    ∃ (rowFuel innerFuel : Nat) (l : List Waypoint),
      generate_grid_pattern 1 goodPolygon 50 100 0 rowFuel innerFuel
        = some l :=
  ⟨⟨by decide, by decide, by decide, by decide, by decide⟩,
    generate_grid_pattern_terminates 1 goodPolygon 50 100 0
      (by decide) (by decide) (by decide) (by decide) (by decide)⟩

/-- Workflow status mirroring the `WorkflowStatus` enum of the source. -/
inductive WorkflowStatus where
  | created
  | running
  | paused
  | completed
  | failed
  | rolled_back
deriving DecidableEq, Repr

/-- Workflow context: the shared mutable dictionary passed to every step
handler, modelled as an association list over a value type `V`. -/
abbrev WfCtx (V : Type) := List (String × V)

/-- A workflow step mirroring the `WorkflowStep` dataclass: a name, a step
handler that may throw, and an optional compensating rollback handler that
may throw.  (The dataclass's mutable `status`/`result`/`error` bookkeeping is
captured by the execution outcome of the model.) -/
structure WStep (V : Type) where
  name : String
  handler : WfCtx V → Except String V
  rollback_handler : Option (WfCtx V → Except String Unit) := none

/-- Python dictionary assignment `d[k] = v`: replace in place when the key
exists, append otherwise. -/
def dictSet {V : Type} (ctx : WfCtx V) (k : String) (v : V) : WfCtx V :=
  if (lookupSubs ctx k).isSome then updateSubs ctx k v else ctx ++ [(k, v)]

/-- The forward loop of `WorkflowCoordinator.execute_workflow`: run the steps
in order against the context; after each successful step append it to the
completed list and store its result under `name + "_result"`; on a thrown
error stop immediately.  Returns the completed steps in completion order, the
names of the steps whose handlers were invoked, the final context, and the
error if one was thrown.  (The per-step `workflow.step.completed` event
publication is not modelled.) -/
def runSteps {V : Type} :
    List (WStep V) → WfCtx V →
      (List (WStep V) × List String × WfCtx V × Option String)
  | [], ctx => ([], [], ctx, none)
  | s :: rest, ctx =>
    match s.handler ctx with
    | .error e => ([], [s.name], ctx, some e)
    | .ok result =>
      let r := runSteps rest (dictSet ctx (s.name ++ "_result") result)
      (s :: r.1, s.name :: r.2.1, r.2.2.1, r.2.2.2)

/-- `WorkflowCoordinator._rollback_workflow`: walk the completed steps in
reverse completion order; for each step that declares a rollback handler,
invoke it with the current context, recording `rolled_back` on success and
`rollback_failed` on a thrown error, without aborting the remaining
compensations. -/
def rollback_workflow {V : Type} (completed : List (WStep V)) (ctx : WfCtx V) :
    List (String × String) :=
  completed.reverse.filterMap fun s =>
    s.rollback_handler.map fun rb =>
      match rb ctx with
      | .ok _ => (s.name, "rolled_back")
      | .error _ => (s.name, "rollback_failed")

/-- The observable outcome of `WorkflowCoordinator.execute_workflow`: the
returned result dictionary (`success`, `error`, per-step rollback report)
together with the sequence of statuses assigned to the workflow and the
execution trace (completed step names, invoked handler names). -/
structure ExecResult where
  success : Bool
  error : Option String := none
  statusHistory : List WorkflowStatus
  completedNames : List String
  invoked : List String
  rollbackReport : List (String × String) := []
deriving DecidableEq, Repr

/-- `WorkflowCoordinator.execute_workflow` for a registered workflow: mark it
`running`; run the steps; if all complete, mark `completed` and return
success; if a step throws, mark `failed`, roll back the completed steps, mark
`rolled_back`, and return failure carrying the error and the rollback
report. -/
def execute_workflow {V : Type} (steps : List (WStep V)) (ctx : WfCtx V) :
    ExecResult :=
  match runSteps steps ctx with
  | (comp, inv, _, none) =>
    { success := true,
      statusHistory := [.running, .completed],
      completedNames := comp.map fun st => st.name,
      invoked := inv }
  | (comp, inv, ctx2, some e) =>
    { success := false, error := some e,
      statusHistory := [.running, .failed, .rolled_back],
      completedNames := comp.map fun st => st.name,
      invoked := inv,
      rollbackReport := rollback_workflow comp ctx2 }

theorem runSteps_append_of_prefix {V : Type} (rest : List (WStep V)) :
    ∀ (pre : List (WStep V)) (ctx0 : WfCtx V),
      (runSteps pre ctx0).1 = pre →
      (runSteps pre ctx0).2.2.2 = none →
      runSteps (pre ++ rest) ctx0 =
        (pre ++ (runSteps rest ((runSteps pre ctx0).2.2.1)).1,
          (runSteps pre ctx0).2.1
            ++ (runSteps rest ((runSteps pre ctx0).2.2.1)).2.1,
          (runSteps rest ((runSteps pre ctx0).2.2.1)).2.2.1,
          (runSteps rest ((runSteps pre ctx0).2.2.1)).2.2.2) := by
  intro pre
  induction pre with
  | nil =>
    intro ctx0 h1 h2
    simp [runSteps]
  | cons s pre ih =>
    intro ctx0 h1 h2
    cases hh : s.handler ctx0 with
    | error e =>
      simp [runSteps, hh] at h1
    | ok result =>
      simp only [runSteps, hh, List.cons.injEq] at h1 h2
      have hpre1 : (runSteps pre (dictSet ctx0 (s.name ++ "_result") result)).1
          = pre := h1.2
      have hihm := ih (dictSet ctx0 (s.name ++ "_result") result) hpre1 h2
      simp only [List.cons_append, runSteps, hh, List.append_eq, hihm]

/-- C1: for every workflow whose steps split as `pre ++ [s] ++ post`, if the
steps of `pre` all complete (with invocation trace `inv` and final context
`ctx1`) and the handler of `s` then throws error `e`, `execute_workflow`
assigns the statuses running, failed and finally rolled_back (in that order),
completes exactly the steps of `pre`, never invokes any handler of `post`,
returns failure carrying `e`, and its rollback report lists exactly the
completed steps that declare a rollback handler, in reverse completion order,
each with status `rolled_back` (its handler returned) or `rollback_failed`
(its handler threw). -/
theorem execute_workflow_rollback {V : Type}
    (pre post : List (WStep V)) (s : WStep V) (ctx0 ctx1 : WfCtx V)
    (inv : List String) (e : String)
    (hpre : runSteps pre ctx0 = (pre, inv, ctx1, none))
    (hs : s.handler ctx1 = .error e) :
    execute_workflow (pre ++ s :: post) ctx0 =
      { success := false, error := some e,
        statusHistory := [.running, .failed, .rolled_back],
        completedNames := pre.map fun st => st.name,
        invoked := inv ++ [s.name],
        rollbackReport := pre.reverse.filterMap fun st =>
          st.rollback_handler.map fun rb =>
            match rb ctx1 with
            | .ok _ => (st.name, "rolled_back")
            | .error _ => (st.name, "rollback_failed") } ∧
    (∀ entry ∈ (execute_workflow (pre ++ s :: post) ctx0).rollbackReport,
      entry.2 = "rolled_back" ∨ entry.2 = "rollback_failed") := by
  have hfail : runSteps (s :: post) ctx1 = ([], [s.name], ctx1, some e) := by
    simp only [runSteps, hs]
  have h1 : (runSteps pre ctx0).1 = pre := by rw [hpre]
  have h2 : (runSteps pre ctx0).2.2.2 = none := by rw [hpre]
  have h3 : (runSteps pre ctx0).2.2.1 = ctx1 := by rw [hpre]
  have h4 : (runSteps pre ctx0).2.1 = inv := by rw [hpre]
  have hrun := runSteps_append_of_prefix (s :: post) pre ctx0 h1 h2
  rw [h3, h4, hfail] at hrun
  simp only [List.append_nil] at hrun
  have hmain : execute_workflow (pre ++ s :: post) ctx0 =
      { success := false, error := some e,
        statusHistory := [.running, .failed, .rolled_back],
        completedNames := pre.map fun st => st.name,
        invoked := inv ++ [s.name],
        rollbackReport := pre.reverse.filterMap fun st =>
          st.rollback_handler.map fun rb =>
            match rb ctx1 with
            | .ok _ => (st.name, "rolled_back")
            | .error _ => (st.name, "rollback_failed") } := by
    simp only [execute_workflow, hrun]
    rfl
  refine ⟨hmain, ?_⟩
  rw [hmain]
  intro entry hentry
  simp only [List.mem_filterMap, Option.map_eq_some'] at hentry
  obtain ⟨st, hst, rb, hmap⟩ := hentry
  obtain ⟨hrb, hentry⟩ := hmap
  cases hrbc : rb ctx1 with
  | ok u =>
    rw [hrbc] at hentry
    rw [← hentry]
    left
    rfl
  | error err =>
    rw [hrbc] at hentry
    rw [← hentry]
    right
    rfl

/-- P5 step 1 for the C1 witness: succeeds, declares a rollback handler. -/
def wStep1 : WStep Nat :=
  { name := "step1", handler := fun _ => .ok 1,
    rollback_handler := some fun _ => .ok () }

/-- P5 step 2 for the C1 witness: succeeds, declares a rollback handler. -/
def wStep2 : WStep Nat :=
  { name := "step2", handler := fun _ => .ok 2,
    rollback_handler := some fun _ => .ok () }

/-- P5 step 3 for the C1 witness: always throws, no rollback handler. -/
def wStep3 : WStep Nat :=
  { name := "step3", handler := fun _ => .error "step3 failure" }

/-- P5 step 4 for the C1 witness: would succeed, but must never run. -/
def wStep4 : WStep Nat :=
  { name := "step4", handler := fun _ => .ok 4 }

/-- Witness for C1 at the four-step P5 scenario: steps 1 and 2 complete, step
3 throws, the workflow ends rolled back with rollback report
[("step2", rolled_back), ("step1", rolled_back)], and step 4 is never
invoked. -/
theorem execute_workflow_rollback_witness :
    (runSteps [wStep1, wStep2] ([] : WfCtx Nat)
        = ([wStep1, wStep2], ["step1", "step2"],
            [("step1_result", 1), ("step2_result", 2)], none) ∧
      wStep3.handler [("step1_result", 1), ("step2_result", 2)]
        = .error "step3 failure") ∧
    (execute_workflow ([wStep1, wStep2] ++ wStep3 :: [wStep4]) ([] : WfCtx Nat)
        = { success := false, error := some "step3 failure",
            statusHistory := [.running, .failed, .rolled_back],
            completedNames := [wStep1, wStep2].map fun st => st.name,
            invoked := ["step1", "step2"] ++ ["step3"],
            rollbackReport := [wStep1, wStep2].reverse.filterMap fun st =>
              st.rollback_handler.map fun rb =>
                match rb [("step1_result", 1), ("step2_result", 2)] with
                | .ok _ => (st.name, "rolled_back")
                | .error _ => (st.name, "rollback_failed") } ∧
      (∀ entry ∈ (execute_workflow ([wStep1, wStep2] ++ wStep3 :: [wStep4])
            ([] : WfCtx Nat)).rollbackReport,
        entry.2 = "rolled_back" ∨ entry.2 = "rollback_failed")) :=
  ⟨⟨rfl, rfl⟩,
    execute_workflow_rollback [wStep1, wStep2] [wStep4] wStep3 []
      [("step1_result", 1), ("step2_result", 2)] ["step1", "step2"]
      "step3 failure" rfl rfl⟩

end GroundControl
